import Mathlib

/-!
A shallow embedding of the OpenAPI validator in `scripts/validate-openapi.js`
(`validateOpenAPISpec` and `calculateStats`), together with theorems checking
the specification's statements about it.

The parsed YAML document is modelled as a JSON-like tree (`Json`).  JavaScript
objects are modelled as association lists in insertion order, and JavaScript
semantics is made explicit where the source relies on it: `Json.truthy` is JS
truthiness, `Json.getField` is property access (returning `none` for JS
`undefined`), and `Json.entries` / `Json.elements` are `Object.entries` and
array iteration.

Modelling caveats, and how the statements below stay clear of them:
- Property access on a primitive (boolean, number, string) yields `undefined`
  in JS via boxing, and `none` here.  On `null`, JS instead throws a
  TypeError, which escapes the validator; the model is total and has no throw
  path.  Theorems whose quantified inputs could otherwise reach such a
  dereference (a `null` response value at `response.content`, a `null`
  components-schema entry at `!schema.type`, a truthy non-array composition
  keyword at `.forEach`) therefore restrict their domains with the explicit
  throw-freedom predicates `plainResponseOk` and `componentEntryOk`; the other
  statements use only concrete documents free of such values.
- `Object.entries` of an array enumerates its index entries in JS; arrays
  (and strings, whose characters JS iterates) are modelled as having no
  entries.  No statement below iterates the entries of a non-mapping.
- A JS `Set` compares objects and arrays by reference; the sets here
  (tag names, response codes) are compared structurally, which agrees with
  JS on the strings every statement below puts in them.
-/

namespace OpenAPIValidate

/-- A parsed YAML/JSON value: `null`, booleans, numbers, strings, sequences,
and mappings (association lists in document order). -/
inductive Json where
  | null : Json
  | bool (b : Bool) : Json
  | num (n : Int) : Json
  | str (s : String) : Json
  | arr (elems : List Json) : Json
  | obj (fields : List (String × Json)) : Json

/-- ASCII lower-casing of one character, as JS `toLowerCase` acts on the
ASCII method keys the validator compares. -/
def lowerChar (c : Char) : Char :=
  if 'A' ≤ c ∧ c ≤ 'Z' then Char.ofNat (c.toNat + 32) else c

/-- ASCII upper-casing of one character, as JS `toUpperCase` acts on the
ASCII method keys the validator renders. -/
def upperChar (c : Char) : Char :=
  if 'a' ≤ c ∧ c ≤ 'z' then Char.ofNat (c.toNat - 32) else c

/-- `s.toLowerCase()` (ASCII). -/
def lowerStr (s : String) : String := ⟨s.data.map lowerChar⟩

/-- `s.toUpperCase()` (ASCII). -/
def upperStr (s : String) : String := ⟨s.data.map upperChar⟩

/-- `s.startsWith(pre)`. -/
def strStartsWith (s pre : String) : Bool := pre.data.isPrefixOf s.data

/-- Lexicographic order on character lists (JS string comparison, which the
default `Array.sort` uses). -/
def charListLe : List Char → List Char → Bool
  | [], _ => true
  | _ :: _, [] => false
  | a :: as, b :: bs => if a = b then charListLe as bs else decide (a < b)

/-- JS `a <= b` on strings. -/
def strLe (a b : String) : Bool := charListLe a.data b.data

/-- Whether `needle` occurs contiguously inside `hay`. -/
def occursIn (needle : List Char) : List Char → Bool
  | [] => needle.isEmpty
  | c :: rest => needle.isPrefixOf (c :: rest) || occursIn needle rest

mutual

/-- Structural equality of values (JS `SameValueZero`, as used by `Set`). -/
def Json.beq : Json → Json → Bool
  | .null, .null => true
  | .bool a, .bool b => a == b
  | .num a, .num b => a == b
  | .str a, .str b => a == b
  | .arr xs, .arr ys => Json.beqList xs ys
  | .obj fs, .obj gs => Json.beqFields fs gs
  | _, _ => false

def Json.beqList : List Json → List Json → Bool
  | [], [] => true
  | x :: xs, y :: ys => Json.beq x y && Json.beqList xs ys
  | _, _ => false

def Json.beqFields : List (String × Json) → List (String × Json) → Bool
  | [], [] => true
  | (k, v) :: fs, (l, w) :: gs => k == l && Json.beq v w && Json.beqFields fs gs
  | _, _ => false

end

instance : BEq Json := ⟨Json.beq⟩

/-- JavaScript truthiness of a value (`undefined` is handled by `Option`
at use sites). -/
def Json.truthy : Json → Bool
  | .null => false
  | .bool b => b
  | .num n => n != 0
  | .str s => s != ""
  | .arr _ => true
  | .obj _ => true

/-- JavaScript `typeof v === "object"`: objects, arrays and `null`. -/
def Json.isObjectType : Json → Bool
  | .null => true
  | .arr _ => true
  | .obj _ => true
  | _ => false

/-- Property access `v[k]`: `none` models JS `undefined` (for a `null` base
JS throws instead of yielding `undefined`; statements whose inputs could
reach such an access carry throw-freedom hypotheses — see the header). -/
def Json.getField : Json → String → Option Json
  | .obj fields, k => (fields.find? (fun p => p.1 == k)).map Prod.snd
  | _, _ => none

/-- `Object.entries(v)` for a mapping; empty for anything else. -/
def Json.entries : Json → List (String × Json)
  | .obj fields => fields
  | _ => []

/-- The elements of a sequence; empty for anything else. -/
def Json.elements : Json → List Json
  | .arr xs => xs
  | _ => []

/-- Truthiness of `v[k]` (false when the field is absent, i.e. `undefined`). -/
def Json.truthyField (j : Json) (k : String) : Bool :=
  match j.getField k with
  | some v => v.truthy
  | none => false

/-- `v[k]` with JS `undefined` collapsed to a default non-collection value;
used only where the source has already established the field is truthy. -/
def Json.fieldD (j : Json) (k : String) : Json :=
  (j.getField k).getD .null

/-- JS `array.length === 0` (also covers the string case; for values without
a numeric `length` the comparison `undefined === 0` is false). -/
def Json.lengthIsZero : Json → Bool
  | .arr xs => xs.isEmpty
  | .str s => s.isEmpty
  | _ => false

/-- The six allowed schema `type` keywords, in source order. -/
def validTypes : List String :=
  ["array", "boolean", "integer", "number", "object", "string"]

/-- `validateTypeField` from the source: the diagnostics it pushes for a
schema's `type` value at `path` (an empty list when it pushes nothing). -/
def validateTypeField (value : Json) (path : String) : List String :=
  match value with
  | .str s =>
    if s = "null" then
      ["Invalid type \"null\" at " ++ path ++ ". Use \"nullable: true\" instead."]
    else if !(validTypes.contains s) then
      ["Invalid type \"" ++ s ++ "\" at " ++ path ++ ". Must be one of: " ++
        String.intercalate ", " validTypes]
    else []
  | _ => []

mutual

/-- The recursive schema walk of the source's `validateSchema`, made total
by structural recursion on a fuel bound.  Every recursive step moves to a
strict subterm of the walked node, so a fuel of `sizeOf schema` (an upper
bound on any descent, consumed one unit per node or list cell) is never
exhausted; the zero-fuel branch is unreachable from `validateSchema`
below.  The early return guard is the source's
`!schema || typeof schema !== "object"`; `properties`, `items`, `oneOf`,
`allOf`, `anyOf` are each walked when truthy, in source order. -/
def validateSchemaF : Nat → Json → String → List String
  | 0, _, _ => []
  | fuel + 1, schema, path =>
    if !(schema.truthy && schema.isObjectType) then []
    else
      (match schema.getField "type" with
       | some t => validateTypeField t path
       | none => [])
      ++ (match schema.getField "properties" with
          | some props =>
            if props.truthy then validatePropsF fuel props.entries path else []
          | none => [])
      ++ (match schema.getField "items" with
          | some items =>
            if items.truthy then validateSchemaF fuel items (path ++ ".items") else []
          | none => [])
      ++ (match schema.getField "oneOf" with
          | some v =>
            if v.truthy then validateEachF fuel v.elements path "oneOf" 0 else []
          | none => [])
      ++ (match schema.getField "allOf" with
          | some v =>
            if v.truthy then validateEachF fuel v.elements path "allOf" 0 else []
          | none => [])
      ++ (match schema.getField "anyOf" with
          | some v =>
            if v.truthy then validateEachF fuel v.elements path "anyOf" 0 else []
          | none => [])

/-- The walk over `Object.entries(schema.properties)`, in order. -/
def validatePropsF : Nat → List (String × Json) → String → List String
  | 0, _, _ => []
  | _ + 1, [], _ => []
  | fuel + 1, (n, s) :: rest, path =>
    validateSchemaF fuel s (path ++ ".properties." ++ n)
      ++ validatePropsF fuel rest path

/-- The indexed `forEach` walk over a composition keyword's elements. -/
def validateEachF : Nat → List Json → String → String → Nat → List String
  | 0, _, _, _, _ => []
  | _ + 1, [], _, _, _ => []
  | fuel + 1, s :: rest, path, kw, i =>
    validateSchemaF fuel s (path ++ "." ++ kw ++ "[" ++ toString i ++ "]")
      ++ validateEachF fuel rest path kw (i + 1)

end

mutual

/-- The number of constructors of a value: an executable upper bound on the
depth of any descent through it. -/
def Json.size : Json → Nat
  | .null => 1
  | .bool _ => 1
  | .num _ => 1
  | .str _ => 1
  | .arr xs => 1 + Json.sizeList xs
  | .obj fs => 1 + Json.sizeFields fs

def Json.sizeList : List Json → Nat
  | [] => 1
  | x :: xs => 1 + Json.size x + Json.sizeList xs

def Json.sizeFields : List (String × Json) → Nat
  | [] => 1
  | (_, v) :: fs => 2 + Json.size v + Json.sizeFields fs

end

/-- `validateSchema` from the source: the errors pushed while recursively
walking a schema node at `path`. -/
def validateSchema (schema : Json) (path : String) : List String :=
  validateSchemaF (Json.size schema) schema path

mutual

/-- Throw-freedom of the source's recursive schema walk: the walk throws a
TypeError exactly when it reaches a node whose truthy `oneOf`, `allOf` or
`anyOf` is not an array (`.forEach` on a non-array).  This predicate follows
the walk and rules that out; a truthy non-mapping `properties` is also ruled
out (JS would enumerate an array's index entries there, which the embedding
does not model).  Fuel as in the walk itself; exhaustion is conservative
(`false`), so the predicate never admits an input the source could throw
on. -/
def schemaWalkOkF : Nat → Json → Bool
  | 0, _ => false
  | fuel + 1, schema =>
    if !(schema.truthy && schema.isObjectType) then true
    else
      (match schema.getField "properties" with
       | some props =>
         if props.truthy then
           match props with
           | Json.obj ps => propsWalkOkF fuel ps
           | Json.arr _ => false
           | _ => true
         else true
       | none => true)
      && (match schema.getField "items" with
          | some items => if items.truthy then schemaWalkOkF fuel items else true
          | none => true)
      && (match schema.getField "oneOf" with
          | some v =>
            if v.truthy then
              match v with
              | Json.arr xs => elemsWalkOkF fuel xs
              | _ => false
            else true
          | none => true)
      && (match schema.getField "allOf" with
          | some v =>
            if v.truthy then
              match v with
              | Json.arr xs => elemsWalkOkF fuel xs
              | _ => false
            else true
          | none => true)
      && (match schema.getField "anyOf" with
          | some v =>
            if v.truthy then
              match v with
              | Json.arr xs => elemsWalkOkF fuel xs
              | _ => false
            else true
          | none => true)

def propsWalkOkF : Nat → List (String × Json) → Bool
  | 0, _ => false
  | _ + 1, [] => true
  | fuel + 1, (_, s) :: rest => schemaWalkOkF fuel s && propsWalkOkF fuel rest

def elemsWalkOkF : Nat → List Json → Bool
  | 0, _ => false
  | _ + 1, [] => true
  | fuel + 1, s :: rest => schemaWalkOkF fuel s && elemsWalkOkF fuel rest

end

/-- Throw-freedom of the schema walk at a node, with the walk's fuel bound. -/
def schemaWalkOk (v : Json) : Bool := schemaWalkOkF (Json.size v) v

/-- A `components.schemas` entry value the source processes without
throwing: not `null` (line `!schema.type` dereferences it after the walk)
and with a throw-free walk. -/
def componentEntryOk (v : Json) : Bool :=
  (match v with
   | Json.null => false
   | _ => true)
  && schemaWalkOk v

/-- A response value the source's response loop passes over without
throwing and without entering the content walk: not `null` (the loop
dereferences `response.content` on it) and with no truthy `content`. -/
def plainResponseOk (v : Json) : Bool :=
  (match v with
   | Json.null => false
   | _ => true)
  && !(v.truthyField "content")

mutual

/-- JS `String(v)` coercion, as applied by `RegExp.test` to a non-string
argument and by template literals (arrays join with commas, objects render
opaquely). -/
def jsToString : Json → String
  | .null => "null"
  | .bool b => if b then "true" else "false"
  | .num n => toString n
  | .str s => s
  | .arr xs => String.intercalate "," (jsToStringList xs)
  | .obj _ => "[object Object]"

def jsToStringList : List Json → List String
  | [] => []
  | x :: xs => jsToString x :: jsToStringList xs

end

/-- Splits a character list into its longest prefix of decimal digits
(`\d` in the source regex) and the rest. -/
def takeDigits : List Char → List Char × List Char
  | [] => ([], [])
  | c :: cs =>
    if c.isDigit then
      let p := takeDigits cs
      (c :: p.1, p.2)
    else ([], c :: cs)

/-- The tail of the version pattern after `3.`: `\d+\.\d+$`. -/
def versionTail (rest : List Char) : Bool :=
  match takeDigits rest with
  | ([], _) => false
  | (_ :: _, r1) =>
    match r1 with
    | c :: r2 =>
      c == '.' &&
        (match takeDigits r2 with
         | ([], _) => false
         | (_ :: _, r3) => r3.isEmpty)
    | [] => false

/-- The source's version test `/^3\.\d+\.\d+$/.test(s)`. -/
def matchesVersion (s : String) : Bool :=
  match s.toList with
  | c1 :: c2 :: rest => c1 == '3' && c2 == '.' && versionTail rest
  | _ => false

/-- The root-field errors of `validateOpenAPISpec` (`openapi`, `info`,
`paths`), in source push order. -/
def rootErrors (spec : Json) : List String :=
  (if !spec.truthyField "openapi" then ["Missing required field: openapi"]
   else if !matchesVersion (jsToString (spec.fieldD "openapi")) then
     ["Invalid OpenAPI version format. Expected 3.x.x format"]
   else [])
  ++ (if !spec.truthyField "info" then ["Missing required field: info"]
      else
        (if !(spec.fieldD "info").truthyField "title" then
          ["Missing required field: info.title"] else [])
        ++ (if !(spec.fieldD "info").truthyField "version" then
          ["Missing required field: info.version"] else []))
  ++ (if !spec.truthyField "paths" then ["Missing required field: paths"] else [])

/-- The root-level warning: `paths` present but empty. -/
def rootWarnings (spec : Json) : List String :=
  if spec.truthyField "paths" && (spec.fieldD "paths").entries.isEmpty then
    ["No paths defined in the specification"]
  else []

/-- The `components.schemas` entries the validator iterates (empty unless
both `components` and `components.schemas` are truthy). -/
def schemasList (spec : Json) : List (String × Json) :=
  if spec.truthyField "components" && (spec.fieldD "components").truthyField "schemas" then
    ((spec.fieldD "components").fieldD "schemas").entries
  else []

/-- Errors from walking each component schema. -/
def schemaSectionErrors (spec : Json) : List String :=
  (schemasList spec).flatMap
    (fun e => validateSchema e.2 ("components.schemas." ++ e.1))

/-- The "has no type definition" warning for a component schema lacking
(truthy) `type`, `$ref`, `allOf`, `oneOf` and `anyOf`. -/
def schemaSectionWarnings (spec : Json) : List String :=
  (schemasList spec).flatMap
    (fun e =>
      if !e.2.truthyField "type" && !e.2.truthyField "$ref"
          && !e.2.truthyField "allOf" && !e.2.truthyField "oneOf"
          && !e.2.truthyField "anyOf" then
        ["Schema \"" ++ e.1 ++ "\" has no type definition"]
      else [])

/-- The eight HTTP method keywords recognized by the path loop. -/
def validMethods : List String :=
  ["get", "post", "put", "delete", "patch", "head", "options", "trace"]

/-- `validMethods.includes(method.toLowerCase())`. -/
def isHttpMethod (m : String) : Bool := validMethods.contains (lowerStr m)

/-- Errors from walking the response-body schemas of one operation. -/
def responseSchemaErrors (pathName method : String) (responses : Json) : List String :=
  responses.entries.flatMap
    (fun r =>
      if r.2.truthyField "content" then
        (r.2.fieldD "content").entries.flatMap
          (fun m =>
            if m.2.truthyField "schema" then
              validateSchema (m.2.fieldD "schema")
                ("paths." ++ pathName ++ "." ++ method ++ ".responses." ++ r.1
                  ++ ".content." ++ m.1 ++ ".schema")
            else [])
      else [])

/-- Errors for one operation: the missing-`responses` error, or else the
response-schema walk. -/
def operationErrors (pathName method : String) (operation : Json) : List String :=
  if !operation.truthyField "responses" then
    ["Missing responses for " ++ upperStr method ++ " " ++ pathName]
  else
    responseSchemaErrors pathName method (operation.fieldD "responses")

/-- Warnings for one operation, in source push order: missing success
response, missing summary/description, missing tags. -/
def operationWarnings (pathName method : String) (operation : Json) : List String :=
  (if operation.truthyField "responses" then
    (if !(operation.fieldD "responses").truthyField "200"
        && !(operation.fieldD "responses").truthyField "201" then
      ["No success response defined for " ++ upperStr method ++ " " ++ pathName]
    else [])
   else [])
  ++ (if !operation.truthyField "summary" && !operation.truthyField "description" then
      ["No summary or description for " ++ upperStr method ++ " " ++ pathName]
    else [])
  ++ (if !operation.truthyField "tags" || (operation.fieldD "tags").lengthIsZero then
      ["No tags defined for " ++ upperStr method ++ " " ++ pathName]
    else [])

/-- Errors from one path item: entries under non-method keys are skipped. -/
def pathItemErrors (pathName : String) (pathItem : Json) : List String :=
  pathItem.entries.flatMap
    (fun e => if isHttpMethod e.1 then operationErrors pathName e.1 e.2 else [])

/-- Warnings from one path item: entries under non-method keys are skipped. -/
def pathItemWarnings (pathName : String) (pathItem : Json) : List String :=
  pathItem.entries.flatMap
    (fun e => if isHttpMethod e.1 then operationWarnings pathName e.1 e.2 else [])

/-- Errors of the paths loop: the `/`-prefix check per path key, then each
path item's operations. -/
def pathsErrors (paths : Json) : List String :=
  paths.entries.flatMap
    (fun p =>
      (if !(strStartsWith p.1 "/") then
        ["Path \"" ++ p.1 ++ "\" must start with \"/\""] else [])
      ++ pathItemErrors p.1 p.2)

/-- Warnings of the paths loop. -/
def pathsWarnings (paths : Json) : List String :=
  paths.entries.flatMap (fun p => pathItemWarnings p.1 p.2)

/-- Insertion-order deduplication, as a JS `Set` accumulates values. -/
def dedupFirst : List (Option Json) → List (Option Json) → List (Option Json)
  | _, [] => []
  | seen, a :: l =>
    if seen.contains a then dedupFirst seen l
    else a :: dedupFirst (a :: seen) l

/-- The declared tag set: `new Set((spec.tags || []).map(tag => tag.name))`,
in insertion order (`none` models a missing `name`, JS `undefined`). -/
def definedTagsList (spec : Json) : List (Option Json) :=
  dedupFirst []
    ((if spec.truthyField "tags" then (spec.fieldD "tags").elements else []).map
      (fun t => t.getField "name"))

/-- The used tag set: every `tags` entry of every path-item entry — the
source applies no HTTP-method filter here. -/
def usedTagsList (spec : Json) : List (Option Json) :=
  dedupFirst []
    ((if spec.truthyField "paths" then (spec.fieldD "paths").entries else []).flatMap
      (fun p =>
        p.2.entries.flatMap
          (fun op =>
            if op.2.truthyField "tags" then
              (op.2.fieldD "tags").elements.map some
            else [])))

/-- Rendering of a tag value inside a warning message (JS template literal). -/
def tagText : Option Json → String
  | none => "undefined"
  | some j => jsToString j

/-- The tag-consistency warnings: declared-but-unused, then
used-but-undeclared, each in set insertion order. -/
def tagWarnings (spec : Json) : List String :=
  ((definedTagsList spec).filter (fun t => !(usedTagsList spec).contains t)).map
    (fun t => "Tag \"" ++ tagText t ++ "\" is defined but never used")
  ++ ((usedTagsList spec).filter (fun t => !(definedTagsList spec).contains t)).map
    (fun t => "Tag \"" ++ tagText t ++ "\" is used but not defined in tags section")

/-- The result record of `validateOpenAPISpec`. -/
structure ValidationResult where
  errors : List String
  warnings : List String
  isValid : Bool
deriving DecidableEq

/-- `validateOpenAPISpec` from the source: accumulates errors and warnings in
push order and reports `isValid` as `errors.length === 0`. -/
def validateOpenAPISpec (spec : Json) : ValidationResult :=
  let errors := rootErrors spec ++ schemaSectionErrors spec
    ++ pathsErrors (spec.fieldD "paths")
  let warnings := rootWarnings spec ++ schemaSectionWarnings spec
    ++ pathsWarnings (spec.fieldD "paths") ++ tagWarnings spec
  { errors := errors, warnings := warnings, isValid := errors.length == 0 }

/-- The statistics record of `calculateStats` (`methods` is the JS object's
association list in insertion order; `responses` the sorted code list). -/
structure Stats where
  endpoints : Nat
  methods : List (String × Nat)
  tags : Nat
  schemas : Nat
  responses : List String
deriving DecidableEq

/-- `stats.methods[method] = (stats.methods[method] || 0) + 1`: bump in
place, appending a fresh key at the end. -/
def bumpCount : List (String × Nat) → String → List (String × Nat)
  | [], m => [(m, 1)]
  | (k, c) :: rest, m =>
    if k == m then (k, c + 1) :: rest else (k, c) :: bumpCount rest m

/-- Insert a string into an already-sorted list (ascending, lexicographic). -/
def insertSorted (s : String) : List String → List String
  | [] => [s]
  | t :: rest => if strLe s t then s :: t :: rest else t :: insertSorted s rest

/-- JS default `Array.sort` on strings: ascending lexicographic order. -/
def sortStrings (l : List String) : List String :=
  l.foldr insertSorted []

/-- The deduplicated response codes in traversal order (the JS `Set`). -/
def responseCodeSet (spec : Json) : List (Option Json) :=
  dedupFirst []
    (((spec.fieldD "paths").entries.flatMap
        (fun p => p.2.entries.filter (fun e => isHttpMethod e.1))).flatMap
      (fun e =>
        if e.2.truthyField "responses" then
          (e.2.fieldD "responses").entries.map (fun r => some (Json.str r.1))
        else []))

/-- `calculateStats` from the source. -/
def calculateStats (spec : Json) : Stats :=
  let ops := (spec.fieldD "paths").entries.flatMap
    (fun p => p.2.entries.filter (fun e => isHttpMethod e.1))
  { endpoints := ops.length
    methods := ops.foldl (fun acc e => bumpCount acc e.1) []
    tags := (if spec.truthyField "tags" then (spec.fieldD "tags").elements else []).length
    schemas := (schemasList spec).length
    responses := sortStrings ((responseCodeSet spec).map tagText) }

/-- The version shape stated by the spec, as written: a literal three-part
dotted version `3.<digits>.<digits>` with a nonempty digit run in each of the
two minor positions.  Stated independently of the regex engine embedding so
the two can be compared. -/
def specVersionPattern (s : String) : Prop :=
  ∃ d1 d2 : List Char, d1 ≠ [] ∧ d2 ≠ [] ∧ (∀ c ∈ d1, c.isDigit = true) ∧
    (∀ c ∈ d2, c.isDigit = true) ∧ s.toList = '3' :: '.' :: (d1 ++ '.' :: d2)

/-- A well-formed `info` object. -/
def okInfo : Json := .obj [("title", .str "T"), ("version", .str "1.0")]

/-- An operation with a success response, a summary and a tag. -/
def okOp : Json :=
  .obj [("responses", .obj [("200", .obj [])]), ("summary", .str "s"),
        ("tags", .arr [.str "A"])]

/-- A root tag list declaring the tag used by `okOp`. -/
def okTags : Json := .arr [.obj [("name", .str "A")]]

/-- A paths object with a single clean operation. -/
def okPaths : Json := .obj [("/p", .obj [("get", okOp)])]

/-- The schema of the first testable property: an object whose property `a`
declares `type: "null"`. -/
def nullPropSchema : Json :=
  .obj [("type", .str "object"),
        ("properties", .obj [("a", .obj [("type", .str "null")])])]

/-- A well-formed document whose only flaw is `nullPropSchema` under
`components.schemas.Thing`. -/
def nullPropDoc : Json :=
  .obj [("openapi", .str "3.0.0"), ("info", okInfo), ("paths", okPaths),
        ("tags", okTags),
        ("components", .obj [("schemas", .obj [("Thing", nullPropSchema)])])]

/-- A document whose only `tags` field sits under the non-method path-item
key `x-custom`. -/
def nonMethodTagDoc : Json :=
  .obj [("openapi", .str "3.0.0"), ("info", okInfo),
        ("paths", .obj [("/p", .obj [("x-custom", .obj [("tags", .arr [.str "B"])])])])]

/-- The same document with the tag name abstracted. -/
def nonMethodTagDocT (t : String) : Json :=
  .obj [("openapi", .str "3.0.0"), ("info", okInfo),
        ("paths", .obj [("/p", .obj [("x-custom", .obj [("tags", .arr [.str t])])])])]

/-- A declared tag referenced only from under a non-method path-item key. -/
def suppressedTagDoc : Json :=
  .obj [("openapi", .str "3.0.0"), ("info", okInfo),
        ("paths", .obj [("/p", .obj [("x-custom", .obj [("tags", .arr [.str "C"])])])]),
        ("tags", .arr [.obj [("name", .str "C")]])]

/-- An operation whose responses mapping is `r`. -/
def successOp (r : Json) : Json :=
  .obj [("responses", r), ("summary", .str "s"), ("tags", .arr [.str "A"])]

/-- A document whose only operation has response keys "200" (mapped to the
falsy, non-null value `false`) and "404". -/
def falseSuccessDoc : Json :=
  .obj [("openapi", .str "3.0.0"), ("info", okInfo),
        ("paths", .obj [("/p", .obj [("get", successOp (.obj [("200", .bool false), ("404", .obj [])]))])]),
        ("tags", okTags)]

/-- A document whose only operation has only a "404" response. -/
def notFoundOnlyDoc : Json :=
  .obj [("openapi", .str "3.0.0"), ("info", okInfo),
        ("paths", .obj [("/p", .obj [("get", successOp (.obj [("404", .obj [])]))])]),
        ("tags", okTags)]

/-- A well-formed document with the `openapi` field abstracted. -/
def versionDoc (s : String) : Json :=
  .obj [("openapi", .str s), ("info", okInfo), ("paths", okPaths), ("tags", okTags)]

/-- A well-formed document with no `openapi` field at all. -/
def noVersionDoc : Json :=
  .obj [("info", okInfo), ("paths", okPaths), ("tags", okTags)]

/-- A document whose only operation lacks a `responses` field. -/
def missingResponsesDoc : Json :=
  .obj [("openapi", .str "3.0.0"), ("info", okInfo),
        ("paths", .obj [("/users", .obj [("get", .obj [("summary", .str "s"), ("tags", .arr [.str "A"])])])]),
        ("tags", okTags)]

/-- A path item with only a non-method key, whose value carries a `tags`
field. -/
def nonMethodOnlyDoc : Json :=
  .obj [("openapi", .str "3.0.0"), ("info", okInfo),
        ("paths", .obj [("/q", .obj [("x-ext", .obj [("tags", .arr [.str "Zed"])])])])]

/-- A path item holding only `parameters`. -/
def paramsOnlyDoc : Json :=
  .obj [("openapi", .str "3.0.0"), ("info", okInfo),
        ("paths", .obj [("/r", .obj [("parameters", .arr [])])])]

/-- An operation with responses "200" and "404". -/
def statsOp : Json :=
  .obj [("responses", .obj [("200", .obj []), ("404", .obj [])]),
        ("summary", .str "s"), ("tags", .arr [.str "A"])]

/-- The stats example document: two paths, each with `get` and `post`, all
four operations answering 200 and 404; schemas abstracted. -/
def statsDoc (ss : List (String × Json)) : Json :=
  .obj [("openapi", .str "3.0.0"), ("info", okInfo),
        ("paths", .obj [("/a", .obj [("get", statsOp), ("post", statsOp)]),
                        ("/b", .obj [("get", statsOp), ("post", statsOp)])]),
        ("components", .obj [("schemas", .obj ss)])]

/-- A well-formed document with the `components.schemas` entries abstracted. -/
def componentsDoc (schemas : List (String × Json)) : Json :=
  .obj [("openapi", .str "3.0.0"), ("info", okInfo), ("paths", okPaths),
        ("tags", okTags),
        ("components", .obj [("schemas", .obj schemas)])]

/-- C9: for every input document, `isValid` is true exactly when the error
sequence is empty; warnings play no part in it. -/
theorem C9_isValid_iff_no_errors (spec : Json) :
    (validateOpenAPISpec spec).isValid = true
      ↔ (validateOpenAPISpec spec).errors = [] := by
  simp [validateOpenAPISpec, List.length_eq_zero]

/-- C8: on a document with two paths each exposing get and post, every
operation answering 200 and 404, the stats are: 4 endpoints, per-method
counts get = 2 and post = 2, response codes rendered sorted as
["200", "404"], and a schema count equal to the number of entries of
`components.schemas`. -/
theorem C8_stats (ss : List (String × Json)) :
    calculateStats (statsDoc ss)
      = { endpoints := 4, methods := [("get", 2), ("post", 2)], tags := 0,
          schemas := ss.length, responses := ["200", "404"] } := rfl

/-- C1 counterexample: on the document holding the schema
`{ type: "object", properties: { a: { type: "null" } } }` the validator
emits exactly one error, and its text does not contain
".properties.a.type" at all, so no emitted path ends that way. -/
theorem C1_null_type_path_counterexample :
    (validateOpenAPISpec nullPropDoc).errors.length = 1
    ∧ ((validateOpenAPISpec nullPropDoc).errors.all
        (fun e => !(occursIn ".properties.a.type".data e.data))) = true :=
  ⟨rfl, rfl⟩

/-- C1 amended: the null-type error for that document names the schema node
containing the offending type field, a path ending in ".properties.a" (not
".properties.a.type"). -/
theorem C1_null_type_path_at_schema_node :
    (validateOpenAPISpec nullPropDoc).errors
      = ["Invalid type \"null\" at components.schemas.Thing.properties.a. Use \"nullable: true\" instead."]
    ∧ (".properties.a".data.isSuffixOf
        "components.schemas.Thing.properties.a".data) = true :=
  ⟨rfl, rfl⟩

/-- C2 counterexample: a `tags` field under the non-method path-item key
`x-custom` does count as used: it produces the "used but not defined"
warning the claim says it can never create. -/
theorem C2_used_tags_counterexample :
    isHttpMethod "x-custom" = false
    ∧ usedTagsList nonMethodTagDoc = [some (Json.str "B")]
    ∧ (validateOpenAPISpec nonMethodTagDoc).warnings
        = ["Tag \"B\" is used but not defined in tags section"] :=
  ⟨rfl, rfl, rfl⟩

/-- C2 amended: the used-tag set is built from every path-item entry with a
truthy `tags` field, with no method filter; a tag under a non-method key
creates a "used but not defined" warning for an undeclared name, and
suppresses the "defined but never used" warning for a declared one. -/
theorem C2_used_tags_no_method_filter :
    (∀ t : String,
      usedTagsList (nonMethodTagDocT t) = [some (Json.str t)]
      ∧ (validateOpenAPISpec (nonMethodTagDocT t)).warnings
          = ["Tag \"" ++ t ++ "\" is used but not defined in tags section"])
    ∧ (validateOpenAPISpec suppressedTagDoc).warnings = [] :=
  ⟨fun _ => ⟨rfl, rfl⟩, rfl⟩

/-- C4: behaviour of the type-field checker on every value: the string
"null" draws the distinguished nullable error, any other string outside the
six allowed keywords draws the generic error listing them, an allowed
keyword draws nothing, and a non-string value draws nothing. -/
theorem C4_type_field_checker (p : String) (v : Json) :
    (v = Json.str "null" →
      validateTypeField v p
        = ["Invalid type \"null\" at " ++ p ++ ". Use \"nullable: true\" instead."])
    ∧ (∀ s : String, v = Json.str s → s ≠ "null" → ¬ s ∈ validTypes →
      validateTypeField v p
        = ["Invalid type \"" ++ s ++ "\" at " ++ p ++ ". Must be one of: " ++
            "array, boolean, integer, number, object, string"])
    ∧ (∀ s : String, v = Json.str s → s ∈ validTypes → validateTypeField v p = [])
    ∧ ((∀ s : String, v ≠ Json.str s) → validateTypeField v p = []) := by
  refine ⟨?_, ?_, ?_, ?_⟩
  · rintro rfl
    rfl
  · rintro s rfl hne hmem
    have hi : String.intercalate ", " validTypes
        = "array, boolean, integer, number, object, string" := rfl
    simp [validateTypeField, hne, hmem, hi]
  · rintro s rfl hmem
    have hne : s ≠ "null" := by
      intro h
      rw [h] at hmem
      simp [validTypes] at hmem
    simp [validateTypeField, hne, hmem]
  · intro h
    cases v with
    | str s => exact absurd rfl (h s)
    | null => rfl
    | bool b => rfl
    | num n => rfl
    | arr xs => rfl
    | obj fs => rfl

/-- C4 witness: the checker at the concrete inputs of the spec's examples. -/
theorem C4_type_field_checker_witness :
    validateTypeField (Json.str "null") "components.schemas.User.type"
      = ["Invalid type \"null\" at components.schemas.User.type. Use \"nullable: true\" instead."]
    ∧ validateTypeField (Json.str "banana") "p"
      = ["Invalid type \"banana\" at p. Must be one of: array, boolean, integer, number, object, string"]
    ∧ validateTypeField (Json.str "string") "p" = []
    ∧ validateTypeField (Json.arr [Json.str "string"]) "p" = [] := by
  refine ⟨(C4_type_field_checker _ _).1 rfl, ?_, ?_, ?_⟩
  · have h := (C4_type_field_checker "p" (Json.str "banana")).2.1 "banana" rfl
      (by decide) (by decide)
    simpa using h
  · exact (C4_type_field_checker "p" (Json.str "string")).2.2.1 "string" rfl (by decide)
  · exact (C4_type_field_checker "p" (Json.arr [Json.str "string"])).2.2.2
      (fun s h => by cases h)

/-- An occurrence stays an occurrence under a longer tail. -/
theorem occursIn_cons {n : List Char} (c : Char) {h : List Char}
    (ho : occursIn n h = true) : occursIn n (c :: h) = true := by
  simp [occursIn, ho]

/-- A list is a prefix of itself followed by anything. -/
theorem isPrefixOf_self_append (n post : List Char) :
    n.isPrefixOf (n ++ post) = true := by
  induction n with
  | nil => simp [List.isPrefixOf]
  | cons a as ih => simp [List.isPrefixOf, ih]

/-- A needle occurs at the front of itself followed by anything. -/
theorem occursIn_self_append (n post : List Char) :
    occursIn n (n ++ post) = true := by
  cases hnp : n ++ post with
  | nil => simp_all [occursIn, List.isEmpty_iff, List.append_eq_nil]
  | cons c rest =>
    have := isPrefixOf_self_append n post
    rw [hnp] at this
    simp [occursIn, this]

/-- A needle occurs anywhere it is embedded: `pre ++ n ++ post`. -/
theorem occursIn_embedded (n pre post : List Char) :
    occursIn n (pre ++ (n ++ post)) = true := by
  induction pre with
  | nil => simpa using occursIn_self_append n post
  | cons c cs ih => simpa using occursIn_cons c (by simpa using ih)

/-- C6: for every operation under an HTTP-method key whose `responses` field
is absent, exactly the one missing-responses error is pushed for it, and its
message embeds the upper-cased method and the path key; instantiated on a
whole document, that is the document's only error. -/
theorem C6_missing_responses :
    (∀ (p m : String) (fields : List (String × Json)),
      (Json.obj fields).getField "responses" = none →
      operationErrors p m (Json.obj fields)
        = ["Missing responses for " ++ upperStr m ++ " " ++ p]
      ∧ occursIn (upperStr m).data
          ("Missing responses for " ++ upperStr m ++ " " ++ p).data = true
      ∧ occursIn p.data
          ("Missing responses for " ++ upperStr m ++ " " ++ p).data = true)
    ∧ (validateOpenAPISpec missingResponsesDoc).errors
        = ["Missing responses for GET /users"]
    ∧ (validateOpenAPISpec missingResponsesDoc).errors.length = 1 := by
  refine ⟨?_, rfl, rfl⟩
  intro p m fields h
  refine ⟨?_, ?_, ?_⟩
  · simp [operationErrors, Json.truthyField, h]
  · have := occursIn_embedded (upperStr m).data
      "Missing responses for ".data (" ".data ++ p.data)
    simpa [String.data_append, List.append_assoc] using this
  · have := occursIn_embedded p.data
      ("Missing responses for ".data ++ (upperStr m).data ++ " ".data) []
    simpa [String.data_append, List.append_assoc] using this

/-- C6 witness: the general statement at a concrete operation. -/
theorem C6_missing_responses_witness :
    operationErrors "/users" "get" (Json.obj [("summary", Json.str "s")])
      = ["Missing responses for " ++ upperStr "get" ++ " " ++ "/users"] :=
  (C6_missing_responses.1 "/users" "get" [("summary", Json.str "s")] rfl).1

/-- C7 counterexample: a path item with only non-method keys can still make
the validator warn (through the unfiltered tag scan), so it does not hold
that such a path item yields zero warnings; errors and endpoint count are
zero as claimed. -/
theorem C7_non_method_counterexample :
    (validateOpenAPISpec nonMethodOnlyDoc).errors = []
    ∧ (validateOpenAPISpec nonMethodOnlyDoc).warnings
        = ["Tag \"Zed\" is used but not defined in tags section"]
    ∧ (calculateStats nonMethodOnlyDoc).endpoints = 0 :=
  ⟨rfl, rfl, rfl⟩

/-- C7 amended: entries under non-method keys are skipped by the path loop
(no errors, no warnings from it) and never counted as endpoints; a whole
document whose only path item holds just `parameters` gets zero errors,
zero warnings and zero endpoints.  (Only the tag scan, which ignores the
method filter, can still read such entries — see the counterexample.) -/
theorem C7_non_method_keys_skipped :
    (∀ (p : String) (fields : List (String × Json)),
      (∀ e ∈ fields, isHttpMethod e.1 = false) →
      pathItemErrors p (Json.obj fields) = []
      ∧ pathItemWarnings p (Json.obj fields) = []
      ∧ ((Json.obj fields).entries.filter (fun e => isHttpMethod e.1)).length = 0)
    ∧ (validateOpenAPISpec paramsOnlyDoc).errors = []
    ∧ (validateOpenAPISpec paramsOnlyDoc).warnings = []
    ∧ (calculateStats paramsOnlyDoc).endpoints = 0 := by
  refine ⟨?_, rfl, rfl, rfl⟩
  intro p fields h
  induction fields with
  | nil => exact ⟨rfl, rfl, rfl⟩
  | cons e rest ih =>
    have he : isHttpMethod e.1 = false := h e (List.mem_cons_self e rest)
    have hr := ih (fun x hx => h x (List.mem_cons_of_mem e hx))
    refine ⟨?_, ?_, ?_⟩
    · simpa [pathItemErrors, Json.entries, he] using hr.1
    · simpa [pathItemWarnings, Json.entries, he] using hr.2.1
    · simpa [Json.entries, he] using hr.2.2

/-- C7 witness: the general statement at the concrete parameters-only item. -/
theorem C7_non_method_keys_skipped_witness :
    pathItemErrors "/r" (Json.obj [("parameters", Json.arr [])]) = []
    ∧ pathItemWarnings "/r" (Json.obj [("parameters", Json.arr [])]) = []
    ∧ ((Json.obj [("parameters", Json.arr [])]).entries.filter
        (fun e => isHttpMethod e.1)).length = 0 :=
  C7_non_method_keys_skipped.1 "/r" [("parameters", Json.arr [])]
    (by intro e he; simp at he; rw [he]; rfl)

/-- C10: on a components section whose every entry the source processes
without throwing (non-null values with throw-free walks — see
`componentEntryOk`), every entry with none of `type`, `$ref`, `allOf`,
`oneOf`, `anyOf` draws the no-type-definition warning, whatever else (such
as `properties` or `items`) it declares. -/
theorem C10_untyped_schema_warning
    (schemas : List (String × Json)) (name : String)
    (sfields : List (String × Json))
    (_hok : (schemas.all (fun e => componentEntryOk e.2)) = true)
    (hmem : (name, Json.obj sfields) ∈ schemas)
    (h1 : (Json.obj sfields).getField "type" = none)
    (h2 : (Json.obj sfields).getField "$ref" = none)
    (h3 : (Json.obj sfields).getField "allOf" = none)
    (h4 : (Json.obj sfields).getField "oneOf" = none)
    (h5 : (Json.obj sfields).getField "anyOf" = none) :
    ("Schema \"" ++ name ++ "\" has no type definition")
      ∈ (validateOpenAPISpec (componentsDoc schemas)).warnings := by
  have h0 : (validateOpenAPISpec (componentsDoc schemas)).warnings
      = (schemaSectionWarnings (componentsDoc schemas)
          ++ pathsWarnings ((componentsDoc schemas).fieldD "paths"))
        ++ tagWarnings (componentsDoc schemas) := rfl
  have hp : pathsWarnings ((componentsDoc schemas).fieldD "paths") = [] := rfl
  have ht : tagWarnings (componentsDoc schemas) = [] := rfl
  have hs : schemasList (componentsDoc schemas) = schemas := rfl
  rw [h0, hp, ht, List.append_nil, List.append_nil]
  unfold schemaSectionWarnings
  rw [hs]
  refine List.mem_flatMap.mpr ⟨(name, Json.obj sfields), hmem, ?_⟩
  simp [Json.truthyField, h1, h2, h3, h4, h5]

/-- C10 witness: a schema declaring only `properties` draws the warning. -/
theorem C10_untyped_schema_warning_witness :
    ("Schema \"OnlyProps\" has no type definition")
      ∈ (validateOpenAPISpec (componentsDoc
          [("OnlyProps", Json.obj [("properties", Json.obj [])])])).warnings :=
  C10_untyped_schema_warning _ "OnlyProps" [("properties", Json.obj [])]
    rfl (List.mem_singleton.mpr rfl) rfl rfl rfl rfl rfl

/-- C3 counterexample: with responses { "200": false, "404": {} } the key
"200" is present among the response keys — and `false` is a value the
source passes over without throwing (`false.content` is `undefined`) — yet
the no-success-response warning is still emitted: the source tests
truthiness at `!operation.responses["200"]`, not key presence. -/
theorem C3_success_warning_counterexample :
    ((Json.obj [("200", Json.bool false), ("404", Json.obj [])]).entries.map
        Prod.fst) = ["200", "404"]
    ∧ (validateOpenAPISpec falseSuccessDoc).errors = []
    ∧ (validateOpenAPISpec falseSuccessDoc).warnings
        = ["No success response defined for GET /p"] :=
  ⟨rfl, rfl, rfl⟩

/-- C3 amended: for an operation whose responses mapping is an object of
response values the source's response loop passes over without throwing
(non-null, no truthy content — see `plainResponseOk`), the
no-success-response warning is emitted if and only if neither "200" nor
"201" holds a truthy value; it lands in warnings, and the rule contributes
no error (the 404-only document has the warning and zero errors). -/
theorem C3_success_warning_truthiness :
    (∀ (p m : String) (rs : List (String × Json)),
      (rs.all (fun q => plainResponseOk q.2)) = true →
      (("No success response defined for " ++ upperStr m ++ " " ++ p)
          ∈ operationWarnings p m (successOp (Json.obj rs))
        ↔ ((Json.obj rs).truthyField "200" = false
            ∧ (Json.obj rs).truthyField "201" = false)))
    ∧ (validateOpenAPISpec notFoundOnlyDoc).errors = []
    ∧ (validateOpenAPISpec notFoundOnlyDoc).warnings
        = ["No success response defined for GET /p"] := by
  refine ⟨?_, rfl, rfl⟩
  intro p m rs _hok
  have e1 : (successOp (Json.obj rs)).truthyField "responses" = true := rfl
  have e2 : (successOp (Json.obj rs)).fieldD "responses" = Json.obj rs := rfl
  have e3 : (successOp (Json.obj rs)).truthyField "summary" = true := rfl
  have e4 : (successOp (Json.obj rs)).truthyField "tags" = true := rfl
  have e5 : ((successOp (Json.obj rs)).fieldD "tags").lengthIsZero = false := rfl
  cases h1 : (Json.obj rs).truthyField "200" <;>
    cases h2 : (Json.obj rs).truthyField "201" <;>
      simp [operationWarnings, e1, e2, e3, e4, e5, h1, h2]

/-- C3 witness: the amended rule at the concrete 404-only responses. -/
theorem C3_success_warning_truthiness_witness :
    ("No success response defined for " ++ upperStr "get" ++ " " ++ "/p")
      ∈ operationWarnings "/p" "get" (successOp (Json.obj [("404", Json.obj [])])) :=
  (C3_success_warning_truthiness.1 "/p" "get"
    [("404", Json.obj [])] rfl).mpr ⟨rfl, rfl⟩

/-- A character list splits into its digit run and the rest. -/
theorem takeDigits_eq (l : List Char) :
    l = (takeDigits l).1 ++ (takeDigits l).2 := by
  induction l with
  | nil => rfl
  | cons c cs ih =>
    by_cases hc : c.isDigit
    · simp only [takeDigits, hc, if_pos]
      simpa using ih
    · simp [takeDigits, hc]

/-- Every character of the digit run is a digit. -/
theorem takeDigits_digits (l : List Char) :
    ∀ c ∈ (takeDigits l).1, c.isDigit = true := by
  induction l with
  | nil => simp [takeDigits]
  | cons c cs ih =>
    by_cases hc : c.isDigit
    · simp only [takeDigits, hc, if_pos]
      intro x hx
      rcases List.mem_cons.mp hx with rfl | hx
      · exact hc
      · exact ih x hx
    · simp [takeDigits, hc]

/-- An all-digit list is consumed whole. -/
theorem takeDigits_all_digits (l : List Char)
    (h : ∀ c ∈ l, c.isDigit = true) : takeDigits l = (l, []) := by
  induction l with
  | nil => rfl
  | cons c cs ih =>
    have hc : c.isDigit = true := h c (List.mem_cons_self c cs)
    have := ih (fun x hx => h x (List.mem_cons_of_mem c hx))
    simp [takeDigits, hc, this]

/-- The digit run stops exactly at the first non-digit. -/
theorem takeDigits_stop (l r : List Char) (c : Char)
    (h : ∀ x ∈ l, x.isDigit = true) (hc : c.isDigit = false) :
    takeDigits (l ++ c :: r) = (l, c :: r) := by
  induction l with
  | nil => simp [takeDigits, hc]
  | cons a as ih =>
    have ha : a.isDigit = true := h a (List.mem_cons_self a as)
    have := ih (fun x hx => h x (List.mem_cons_of_mem a hx))
    simp [takeDigits, ha, this]

/-- The tail matcher accepts exactly `\d+\.\d+` with nothing after it. -/
theorem versionTail_iff (rest : List Char) :
    versionTail rest = true ↔
      ∃ d1 d2 : List Char, d1 ≠ [] ∧ d2 ≠ [] ∧ (∀ c ∈ d1, c.isDigit = true) ∧
        (∀ c ∈ d2, c.isDigit = true) ∧ rest = d1 ++ '.' :: d2 := by
  constructor
  · intro h
    rcases hTD : takeDigits rest with ⟨d1, r1⟩
    rw [versionTail, hTD] at h
    cases d1 with
    | nil => simp at h
    | cons a as =>
      cases r1 with
      | nil => simp at h
      | cons c r2 =>
        rw [Bool.and_eq_true] at h
        obtain ⟨hc, h2⟩ := h
        have hc : c = '.' := by simpa using hc
        rcases hTD2 : takeDigits r2 with ⟨d2, r3⟩
        rw [hTD2] at h2
        cases d2 with
        | nil => simp at h2
        | cons b bs =>
          have hr3 : r3 = [] := by simpa [List.isEmpty_iff] using h2
          have hrest : rest = (a :: as) ++ c :: r2 := by
            have := takeDigits_eq rest
            rw [hTD] at this
            exact this
          have hr2 : r2 = (b :: bs) ++ r3 := by
            have := takeDigits_eq r2
            rw [hTD2] at this
            exact this
          refine ⟨a :: as, b :: bs, by simp, by simp, ?_, ?_, ?_⟩
          · have := takeDigits_digits rest
            rw [hTD] at this
            exact this
          · have := takeDigits_digits r2
            rw [hTD2] at this
            exact this
          · rw [hrest, hc, hr2, hr3, List.append_nil]
  · rintro ⟨d1, d2, h1, h2, hd1, hd2, rfl⟩
    have ht : takeDigits (d1 ++ '.' :: d2) = (d1, '.' :: d2) :=
      takeDigits_stop d1 d2 '.' hd1 (by decide)
    have ht2 : takeDigits d2 = (d2, []) := takeDigits_all_digits d2 hd2
    cases d1 with
    | nil => exact absurd rfl h1
    | cons a as =>
      cases d2 with
      | nil => exact absurd rfl h2
      | cons b bs =>
        simp only [List.cons_append] at ht
        simp [versionTail, ht, ht2]

/-- The embedded regex accepts exactly the strings of the spec's literal
shape 3.&lt;digits&gt;.&lt;digits&gt;. -/
theorem matchesVersion_iff (s : String) :
    matchesVersion s = true ↔ specVersionPattern s := by
  rw [matchesVersion, specVersionPattern]
  rcases hs : s.toList with _ | ⟨c1, t1⟩
  · simp [hs]
  · rcases ht1 : t1 with _ | ⟨c2, rest⟩
    · simp [hs, ht1]
    · simp only [hs, ht1, Bool.and_eq_true, beq_iff_eq, versionTail_iff,
        List.cons.injEq]
      constructor
      · rintro ⟨⟨h3, hdot⟩, d1, d2, hn1, hn2, hd1, hd2, hrest⟩
        exact ⟨d1, d2, hn1, hn2, hd1, hd2, h3, hdot, hrest⟩
      · rintro ⟨d1, d2, hn1, hn2, hd1, hd2, h3, hdot, hrest⟩
        exact ⟨⟨h3, hdot⟩, d1, d2, hn1, hn2, hd1, hd2, hrest⟩

/-- C5: the openapi root check accepts (on an otherwise well-formed
document) exactly the strings of the literal form 3.&lt;digits&gt;.&lt;digits&gt;;
"3.0.4" passes, "2.0" and "abc" draw the wrong-format error, and an absent
field draws the distinct missing-field error instead. -/
theorem C5_version_check :
    (∀ s : String,
      ((validateOpenAPISpec (versionDoc s)).errors = [] ↔ matchesVersion s = true))
    ∧ (∀ s : String, matchesVersion s = true ↔ specVersionPattern s)
    ∧ (validateOpenAPISpec (versionDoc "3.0.4")).errors = []
    ∧ (validateOpenAPISpec (versionDoc "2.0")).errors
        = ["Invalid OpenAPI version format. Expected 3.x.x format"]
    ∧ (validateOpenAPISpec (versionDoc "abc")).errors
        = ["Invalid OpenAPI version format. Expected 3.x.x format"]
    ∧ (validateOpenAPISpec noVersionDoc).errors
        = ["Missing required field: openapi"] := by
  refine ⟨?_, matchesVersion_iff, rfl, rfl, rfl, rfl⟩
  intro s
  have h0 : (validateOpenAPISpec (versionDoc s)).errors
      = (((if !(s != "") then ["Missing required field: openapi"]
           else if !matchesVersion s then
             ["Invalid OpenAPI version format. Expected 3.x.x format"]
           else []) ++ [] ++ [])
          ++ schemaSectionErrors (versionDoc s))
        ++ pathsErrors ((versionDoc s).fieldD "paths") := rfl
  have h1 : schemaSectionErrors (versionDoc s) = [] := rfl
  have h2 : pathsErrors ((versionDoc s).fieldD "paths") = [] := rfl
  rw [h0, h1, h2]
  simp only [List.append_nil]
  by_cases hs : s = ""
  · subst hs
    decide
  · have hne : (s != "") = true := bne_iff_ne.mpr hs
    rw [hne]
    cases hm : matchesVersion s <;> simp

end OpenAPIValidate
